import Mathlib

/-!
# Verification of the twenty25 card-categorization game core

Shallow embedding of the game-state engine (`src/lib/context/GameContext.tsx`),
the pure game utilities (`src/lib/game-utils.ts`) and the dataset loader
(`src/lib/game-data-loader.ts`), together with proofs about the spec's claims.

Modelling conventions:
* JS strings are `String`, JS numbers used as counters are `Int`
  (JS arithmetic on them is exact integer arithmetic in range),
  numeric expressions involving division are modelled over `ℚ`.
* A JS value that may be `null`/`undefined`/missing is an `Option`.
* `Math.random`-driven choices are an explicit oracle `rand : Nat → Nat`.
-/

namespace Twenty25

/-- `Card` from `src/lib/types/game.ts`. -/
structure Card where
  id : String
  title : String
  categoryId : String
deriving DecidableEq, Repr

/-- `Category` from `src/lib/types/game.ts`. -/
structure Category where
  id : String
  name : String
deriving DecidableEq, Repr

/-- `Pile` from `src/lib/types/game.ts`. -/
structure Pile where
  id : String
  cardIds : List String
  isComplete : Bool
  revealedCategoryName : Option String
deriving DecidableEq, Repr

/-- `GameState` from `src/lib/types/game.ts`. -/
structure GameState where
  cards : List Card
  piles : List Pile
  mistakes : Int
  completedCount : Int
deriving DecidableEq, Repr

/-- `GameAction` from `src/lib/types/game.ts`.  The source `CREATE_PILE` action
carries only the two card ids; the pile id is generated inside the reducer
(`pile-${Date.now()}-…`), so here the generated id is an explicit field. -/
inductive GameAction where
  | createPile (newPileId card1Id card2Id : String)
  | addCardToPile (cardId pileId : String) (categoryName : Option String)
  | splitPile (pileId : String)
  | incrementMistakes
  | resetGame
deriving DecidableEq, Repr

/-- JS string-falsiness collapse: `s || null` / `s || undefined` maps both the
empty string and `null`/`undefined` to `none`. -/
def strFalsyToNone : Option String → Option String
  | some s => if s = "" then none else some s
  | none => none

/-- `isPileComplete` from `src/lib/game-utils.ts`: exactly 45 cards. -/
def isPileComplete (pile : Pile) : Bool :=
  pile.cardIds.length == 45

/-- `getPileCategoryId` from `src/lib/game-utils.ts`: category of the first
card of the pile, `null` for an empty pile or an unresolvable first card. -/
def getPileCategoryId (pile : Pile) (allCards : List Card) : Option String :=
  match pile.cardIds with
  | [] => none
  | firstCardId :: _ =>
    match allCards.find? (fun c => c.id == firstCardId) with
    | some firstCard => some firstCard.categoryId
    | none => none

/-- `canAddCardToPile` from `src/lib/game-utils.ts`. -/
def canAddCardToPile (card : Card) (pile : Pile) (allCards : List Card) : Bool :=
  if pile.cardIds.length == 0 then
    true
  else
    some card.categoryId == getPileCategoryId pile allCards

/-- `getCategoryName` from `src/lib/game-utils.ts`. -/
def getCategoryName (categoryId : String) (categories : List Category) : Option String :=
  match categories.find? (fun c => c.id == categoryId) with
  | some category => some category.name
  | none => none

/-- Replace the first pile whose id matches `pileId` by `newPile`; models
`newPiles = [...state.piles]; newPiles[pileIndex] = updatedPile` where
`pileIndex` is the `findIndex` result (the first match). -/
def setFirstPile (pileId : String) (newPile : Pile) : List Pile → List Pile
  | [] => []
  | p :: ps => if p.id == pileId then newPile :: ps else p :: setFirstPile pileId newPile ps

/-- The pile update of the reducer's `ADD_CARD_TO_PILE` case: append the card
id, and mark the pile complete and reveal the category name when the new size
reaches 45 (`updatedPile` in `GameContext.tsx`, lines 70-79). -/
def addCardUpdatedPile (pile : Pile) (cardId : String)
    (categoryName : Option String) : Pile :=
  let updatedPile0 : Pile := { pile with cardIds := pile.cardIds ++ [cardId] }
  if isPileComplete updatedPile0 then
    { updatedPile0 with
      isComplete := true,
      revealedCategoryName := strFalsyToNone categoryName }
  else updatedPile0

/-- `gameReducer` from `src/lib/context/GameContext.tsx`. -/
def gameReducer (state : GameState) (action : GameAction) : GameState :=
  match action with
  | .createPile newPileId card1Id card2Id =>
    match state.cards.find? (fun c => c.id == card1Id),
          state.cards.find? (fun c => c.id == card2Id) with
    | some card1, some card2 =>
      if card1.categoryId != card2.categoryId then
        state
      else
        { state with
          piles := state.piles ++
            [{ id := newPileId, cardIds := [card1Id, card2Id],
               isComplete := false, revealedCategoryName := none }] }
    | _, _ => state
  | .addCardToPile cardId pileId categoryName =>
    match state.piles.find? (fun p => p.id == pileId) with
    | none => state
    | some pile =>
      let updatedPile : Pile := addCardUpdatedPile pile cardId categoryName
      let newCompletedCount : Int :=
        if updatedPile.isComplete && !pile.isComplete then
          state.completedCount + 1
        else state.completedCount
      { state with
        piles := setFirstPile pileId updatedPile state.piles,
        completedCount := newCompletedCount }
  | .splitPile pileId =>
    { state with
      piles := state.piles.filter (fun p => p.id != pileId),
      completedCount :=
        match state.piles.find? (fun p => p.id == pileId) with
        | some p => if p.isComplete then state.completedCount - 1 else state.completedCount
        | none => state.completedCount }
  | .incrementMistakes =>
    { state with mistakes := state.mistakes + 1 }
  | .resetGame =>
    { cards := state.cards, piles := [], mistakes := 0, completedCount := 0 }

/-- `tryAddCardToPile` from `src/lib/context/GameContext.tsx`.  Returns the
state after the dispatched action (if any) together with the boolean result. -/
def tryAddCardToPile (state : GameState) (categories : List Category)
    (cardId pileId : String) : GameState × Bool :=
  match state.cards.find? (fun c => c.id == cardId),
        state.piles.find? (fun p => p.id == pileId) with
  | some card, some pile =>
    if pile.isComplete then
      (state, false)
    else if !canAddCardToPile card pile state.cards then
      (gameReducer state .incrementMistakes, false)
    else
      let willComplete := pile.cardIds.length + 1 == 45
      let categoryName :=
        if willComplete then getCategoryName card.categoryId categories else none
      (gameReducer state (.addCardToPile cardId pileId (strFalsyToNone categoryName)), true)
  | _, _ => (state, false)

/-- `tryCreatePile` from `src/lib/context/GameContext.tsx`; `newPileId` is the
id the reducer will generate for the created pile. -/
def tryCreatePile (state : GameState) (newPileId card1Id card2Id : String) :
    GameState × Bool :=
  match state.cards.find? (fun c => c.id == card1Id),
        state.cards.find? (fun c => c.id == card2Id) with
  | some card1, some card2 =>
    if card1.categoryId != card2.categoryId then
      (gameReducer state .incrementMistakes, false)
    else
      (gameReducer state (.createPile newPileId card1Id card2Id), true)
  | _, _ => (state, false)

/-- The initial state built by `GameProvider`: loaded cards, no piles,
zero counters. -/
def initState (cards : List Card) : GameState :=
  { cards := cards, piles := [], mistakes := 0, completedCount := 0 }

/-- JS `Math.round`: rounds half toward positive infinity. -/
def jsRound (q : ℚ) : ℤ := ⌊q + 1 / 2⌋

/-- `calculateCompletionPercentage` from `src/lib/game-utils.ts`.  Note the
card count per completed pile is the hardcoded literal `45`. -/
def calculateCompletionPercentage (state : GameState) : ℤ :=
  let totalCards : ℕ := state.cards.length
  if totalCards = 0 then 0
  else
    let completedCards : ℤ := state.completedCount * 45
    jsRound ((completedCards : ℚ) / (totalCards : ℚ) * 100)

/-- The spec's per-category capacity constant (canonical value 45). -/
def CategorySize : ℕ := 45

/- Concrete fixtures used in witnesses and counterexamples. -/

def cardA : Card := { id := "card-1", title := "Title 1", categoryId := "cat-1" }

def cardB : Card := { id := "card-2", title := "Title 2", categoryId := "cat-1" }

def cardC : Card := { id := "card-3", title := "Title 3", categoryId := "cat-1" }

def cardD : Card := { id := "card-4", title := "Title 4", categoryId := "cat-2" }

/-- A state obtained by one accepted pile creation on a two-card set. -/
def c3State : GameState :=
  gameReducer (initState [cardA, cardB]) (.createPile "pile-1" "card-1" "card-2")

/-- A state with 6 cards and `completedCount = 1`, the spec's completion
percentage scenario. -/
def sixCardState : GameState :=
  { cards := [cardA, cardB, cardC, cardD,
              { id := "card-5", title := "Title 5", categoryId := "cat-2" },
              { id := "card-6", title := "Title 6", categoryId := "cat-2" }],
    piles := [], mistakes := 0, completedCount := 1 }

/-- C6: `ResetGame` clears `piles`, `mistakes` and `completedCount` and keeps
the card list (same ids, same order) unchanged. -/
theorem c6_resetGame_frame (s : GameState) :
    (gameReducer s .resetGame).piles = [] ∧
    (gameReducer s .resetGame).mistakes = 0 ∧
    (gameReducer s .resetGame).completedCount = 0 ∧
    (gameReducer s .resetGame).cards = s.cards := by
  refine ⟨rfl, rfl, rfl, rfl⟩

/-- C10: dispatching `CREATE_PILE` directly to the engine with two existing
cards of different categories leaves the state unchanged: no pile is appended
and `mistakes` is not incremented. -/
theorem c10_createPile_mismatch_noop (s : GameState) (pid c1 c2 : String)
    (card1 card2 : Card)
    (h1 : s.cards.find? (fun c => c.id == c1) = some card1)
    (h2 : s.cards.find? (fun c => c.id == c2) = some card2)
    (hne : card1.categoryId ≠ card2.categoryId) :
    gameReducer s (.createPile pid c1 c2) = s := by
  simp [gameReducer, h1, h2, bne_iff_ne, hne]

/-- Witness for C10 at a concrete mixed-category state. -/
theorem c10_createPile_mismatch_noop_witness :
    gameReducer (initState [cardA, cardD]) (.createPile "p" "card-1" "card-4") =
      initState [cardA, cardD] :=
  c10_createPile_mismatch_noop (initState [cardA, cardD]) "p" "card-1" "card-4"
    cardA cardD (by decide) (by decide) (by decide)

/-- C3 fails: `ADD_CARD_TO_PILE` never looks the card up, so an action naming
a nonexistent card id but an existing pile id does change the state (the ghost
id is appended to the pile). -/
theorem c3_counterexample :
    c3State.cards.find? (fun c => c.id == "ghost") = none ∧
    gameReducer c3State (.addCardToPile "ghost" "pile-1" none) ≠ c3State := by
  decide

/-- C3 amended: the engine is a no-op for `CREATE_PILE` with an unknown card
id, for `ADD_CARD_TO_PILE` with an unknown pile id, and for `SPLIT_PILE` with
an unknown pile id (`ADD_CARD_TO_PILE` does not check card existence). -/
theorem c3_amended_unknown_ref_noop (s : GameState)
    (pid c1 c2 cid apid spid : String) (cname : Option String) :
    (s.cards.find? (fun c => c.id == c1) = none ∨
       s.cards.find? (fun c => c.id == c2) = none →
       gameReducer s (.createPile pid c1 c2) = s) ∧
    (s.piles.find? (fun p => p.id == apid) = none →
       gameReducer s (.addCardToPile cid apid cname) = s) ∧
    (s.piles.find? (fun p => p.id == spid) = none →
       gameReducer s (.splitPile spid) = s) := by
  refine ⟨?_, ?_, ?_⟩
  · rintro (h | h)
    · simp [gameReducer, h]
    · cases hc : s.cards.find? (fun c => c.id == c1) <;> simp [gameReducer, h, hc]
  · intro h
    simp [gameReducer, h]
  · intro h
    have hall : ∀ p ∈ s.piles, ¬(p.id == spid) = true := List.find?_eq_none.mp h
    have hfilter : s.piles.filter (fun p => p.id != spid) = s.piles := by
      rw [List.filter_eq_self]
      intro p hp
      simpa [bne_iff_ne] using hall p hp
    simp [gameReducer, h, hfilter]

/-- Witness for C3's amended claim at concrete unknown ids. -/
theorem c3_amended_unknown_ref_noop_witness :
    gameReducer (initState [cardA]) (.createPile "p" "nope" "card-1") =
        initState [cardA] ∧
    gameReducer (initState [cardA]) (.addCardToPile "card-1" "nope" none) =
        initState [cardA] ∧
    gameReducer (initState [cardA]) (.splitPile "nope") = initState [cardA] :=
  ⟨(c3_amended_unknown_ref_noop (initState [cardA]) "p" "nope" "card-1" "card-1"
      "nope" "nope" none).1 (Or.inl (by decide)),
   (c3_amended_unknown_ref_noop (initState [cardA]) "p" "nope" "card-1" "card-1"
      "nope" "nope" none).2.1 (by decide),
   (c3_amended_unknown_ref_noop (initState [cardA]) "p" "nope" "card-1" "card-1"
      "nope" "nope" none).2.2 (by decide)⟩

/-- The completion percentage of the spec's 6-card scenario state. -/
theorem completionPercentage_sixCardState :
    calculateCompletionPercentage sixCardState = 750 := by
  simp only [calculateCompletionPercentage, jsRound, sixCardState]
  norm_num

/-- C4 fails: the completion percentage hardcodes 45 cards per completed pile,
so 6 total cards with `completedCount = 1` yield 750, not the 50 the spec's
`CategorySize = 3` scenario predicts. -/
theorem c4_counterexample :
    sixCardState.cards.length = 6 ∧ sixCardState.completedCount = 1 ∧
    calculateCompletionPercentage sixCardState = 750 ∧ (750 : ℤ) ≠ 50 :=
  ⟨rfl, rfl, completionPercentage_sixCardState, by decide⟩

/-- C4 amended: the completion percentage is
`round(completedCount * 45 / totalCards * 100)` with the per-pile card count
hardcoded to the canonical `CategorySize` value 45 (not configurable), it is 0
when `totalCards = 0`, and the spec's 6-card, one-completed-pile instance
evaluates to 750. -/
theorem c4_amended_completionPercentage :
    (∀ s : GameState,
      calculateCompletionPercentage s =
        if s.cards.length = 0 then 0
        else jsRound ((s.completedCount : ℚ) * (CategorySize : ℚ) /
          (s.cards.length : ℚ) * 100)) ∧
    calculateCompletionPercentage sixCardState = 750 := by
  constructor
  · intro s
    unfold calculateCompletionPercentage CategorySize
    by_cases h : s.cards.length = 0
    · simp [h]
    · simp only [h, if_false]
      congr 1
      push_cast
      ring
  · exact completionPercentage_sixCardState

/- Fixtures for the try-helper branch behavior. -/

def c5MixedState : GameState :=
  { cards := [cardA, cardB, cardC, cardD], piles := [], mistakes := 0, completedCount := 0 }

def c5OpenPile : Pile :=
  { id := "pile-1", cardIds := ["card-1", "card-2"], isComplete := false,
    revealedCategoryName := none }

def c5PileState : GameState :=
  { cards := [cardA, cardB, cardC, cardD], piles := [c5OpenPile],
    mistakes := 0, completedCount := 0 }

def c5CompletedPile : Pile :=
  { id := "pile-2", cardIds := ["card-1"], isComplete := true,
    revealedCategoryName := some "Cat" }

def c5CompleteState : GameState :=
  { cards := [cardA, cardB, cardC, cardD], piles := [c5CompletedPile],
    mistakes := 0, completedCount := 1 }

/-- C5: the try helpers record a mistake exactly on a category mismatch.
`tryCreatePile`: a missing card gives failure with no state change; two
existing cards of different categories give failure, `mistakes + 1` and
unchanged piles; otherwise `CREATE_PILE` is dispatched with success.
`tryAddCardToPile`: a missing card or pile, or an already-complete target
pile, gives failure with no state change; an existing card rejected by the
gate on an open pile gives failure, `mistakes + 1` and unchanged piles;
otherwise `ADD_CARD_TO_PILE` is dispatched with success. -/
theorem c5_try_helpers_mistakes (s : GameState) (cats : List Category)
    (pid c1 c2 cid apid : String) :
    (s.cards.find? (fun c => c.id == c1) = none ∨
       s.cards.find? (fun c => c.id == c2) = none →
       tryCreatePile s pid c1 c2 = (s, false)) ∧
    (∀ card1 card2,
       s.cards.find? (fun c => c.id == c1) = some card1 →
       s.cards.find? (fun c => c.id == c2) = some card2 →
       card1.categoryId ≠ card2.categoryId →
       (tryCreatePile s pid c1 c2).1.piles = s.piles ∧
       (tryCreatePile s pid c1 c2).1.mistakes = s.mistakes + 1 ∧
       (tryCreatePile s pid c1 c2).2 = false) ∧
    (∀ card1 card2,
       s.cards.find? (fun c => c.id == c1) = some card1 →
       s.cards.find? (fun c => c.id == c2) = some card2 →
       card1.categoryId = card2.categoryId →
       tryCreatePile s pid c1 c2 = (gameReducer s (.createPile pid c1 c2), true)) ∧
    (s.cards.find? (fun c => c.id == cid) = none ∨
       s.piles.find? (fun p => p.id == apid) = none →
       tryAddCardToPile s cats cid apid = (s, false)) ∧
    (∀ card pile,
       s.cards.find? (fun c => c.id == cid) = some card →
       s.piles.find? (fun p => p.id == apid) = some pile →
       pile.isComplete = true →
       tryAddCardToPile s cats cid apid = (s, false)) ∧
    (∀ card pile,
       s.cards.find? (fun c => c.id == cid) = some card →
       s.piles.find? (fun p => p.id == apid) = some pile →
       pile.isComplete = false →
       canAddCardToPile card pile s.cards = false →
       (tryAddCardToPile s cats cid apid).1.piles = s.piles ∧
       (tryAddCardToPile s cats cid apid).1.mistakes = s.mistakes + 1 ∧
       (tryAddCardToPile s cats cid apid).2 = false) ∧
    (∀ card pile,
       s.cards.find? (fun c => c.id == cid) = some card →
       s.piles.find? (fun p => p.id == apid) = some pile →
       pile.isComplete = false →
       canAddCardToPile card pile s.cards = true →
       tryAddCardToPile s cats cid apid =
         (gameReducer s (.addCardToPile cid apid (strFalsyToNone
           (if pile.cardIds.length + 1 == 45 then
              getCategoryName card.categoryId cats
            else none))), true)) := by
  refine ⟨?_, ?_, ?_, ?_, ?_, ?_, ?_⟩
  · rintro (h | h)
    · simp [tryCreatePile, h]
    · cases hc : s.cards.find? (fun c => c.id == c1) <;> simp [tryCreatePile, h, hc]
  · intro card1 card2 h1 h2 hne
    simp [tryCreatePile, h1, h2, bne_iff_ne, hne, gameReducer]
  · intro card1 card2 h1 h2 heq
    simp [tryCreatePile, h1, h2, bne_iff_ne, heq]
  · rintro (h | h)
    · simp [tryAddCardToPile, h]
    · cases hc : s.cards.find? (fun c => c.id == cid) <;> simp [tryAddCardToPile, h, hc]
  · intro card pile h1 h2 hcomp
    simp [tryAddCardToPile, h1, h2, hcomp]
  · intro card pile h1 h2 hcomp hgate
    simp [tryAddCardToPile, h1, h2, hcomp, hgate, gameReducer]
  · intro card pile h1 h2 hcomp hgate
    simp [tryAddCardToPile, h1, h2, hcomp, hgate]

/-- Witness for C5 exercising every branch at concrete inputs, including the
spec's mixed-category `tryCreatePile(card-1, card-4)` scenario. -/
theorem c5_try_helpers_mistakes_witness :
    tryCreatePile c5MixedState "p" "card-1" "nope" = (c5MixedState, false) ∧
    ((tryCreatePile c5MixedState "p" "card-1" "card-4").1.piles = c5MixedState.piles ∧
      (tryCreatePile c5MixedState "p" "card-1" "card-4").1.mistakes =
        c5MixedState.mistakes + 1 ∧
      (tryCreatePile c5MixedState "p" "card-1" "card-4").2 = false) ∧
    tryCreatePile c5MixedState "p" "card-1" "card-2" =
      (gameReducer c5MixedState (.createPile "p" "card-1" "card-2"), true) ∧
    tryAddCardToPile c5PileState [] "card-3" "nope" = (c5PileState, false) ∧
    tryAddCardToPile c5CompleteState [] "card-3" "pile-2" = (c5CompleteState, false) ∧
    ((tryAddCardToPile c5PileState [] "card-4" "pile-1").1.piles = c5PileState.piles ∧
      (tryAddCardToPile c5PileState [] "card-4" "pile-1").1.mistakes =
        c5PileState.mistakes + 1 ∧
      (tryAddCardToPile c5PileState [] "card-4" "pile-1").2 = false) ∧
    tryAddCardToPile c5PileState [] "card-3" "pile-1" =
      (gameReducer c5PileState (.addCardToPile "card-3" "pile-1" (strFalsyToNone
        (if c5OpenPile.cardIds.length + 1 == 45 then
           getCategoryName cardC.categoryId []
         else none))), true) :=
  ⟨(c5_try_helpers_mistakes c5MixedState [] "p" "card-1" "nope" "card-3" "nope").1
      (Or.inr (by decide)),
   (c5_try_helpers_mistakes c5MixedState [] "p" "card-1" "card-4" "card-3" "nope").2.1
      cardA cardD (by decide) (by decide) (by decide),
   (c5_try_helpers_mistakes c5MixedState [] "p" "card-1" "card-2" "card-3" "nope").2.2.1
      cardA cardB (by decide) (by decide) (by decide),
   (c5_try_helpers_mistakes c5PileState [] "p" "card-1" "card-2" "card-3" "nope").2.2.2.1
      (Or.inr (by decide)),
   (c5_try_helpers_mistakes c5CompleteState [] "p" "card-1" "card-2" "card-3"
      "pile-2").2.2.2.2.1 cardC c5CompletedPile (by decide) (by decide) (by decide),
   (c5_try_helpers_mistakes c5PileState [] "p" "card-1" "card-2" "card-4"
      "pile-1").2.2.2.2.2.1 cardD c5OpenPile (by decide) (by decide) (by decide)
      (by decide),
   (c5_try_helpers_mistakes c5PileState [] "p" "card-1" "card-2" "card-3"
      "pile-1").2.2.2.2.2.2 cardC c5OpenPile (by decide) (by decide) (by decide)
      (by decide)⟩

/-- One engine transition: any of the five actions, dispatched with arbitrary
payloads.  The pile id generated inside the `CREATE_PILE` case
(`pile-${Date.now()}-${random}`, commented "Generate a unique pile ID") is
modelled as an arbitrary id fresh with respect to the current piles. -/
inductive Step : GameState → GameState → Prop where
  | createPile (s : GameState) (newPileId card1Id card2Id : String)
      (hfresh : newPileId ∉ s.piles.map Pile.id) :
      Step s (gameReducer s (.createPile newPileId card1Id card2Id))
  | addCardToPile (s : GameState) (cardId pileId : String)
      (categoryName : Option String) :
      Step s (gameReducer s (.addCardToPile cardId pileId categoryName))
  | splitPile (s : GameState) (pileId : String) :
      Step s (gameReducer s (.splitPile pileId))
  | incrementMistakes (s : GameState) :
      Step s (gameReducer s .incrementMistakes)
  | resetGame (s : GameState) :
      Step s (gameReducer s .resetGame)

/-- States reachable from the initial state by engine actions. -/
def Reachable (cards : List Card) (s : GameState) : Prop :=
  Relation.ReflTransGen Step (initState cards) s

/-- `completedCount` bookkeeping invariant, together with the uniqueness of
pile ids that the generated-id scheme maintains. -/
def completedInv (s : GameState) : Prop :=
  s.completedCount = (s.piles.countP (fun p => p.isComplete) : ℤ) ∧
    (s.piles.map Pile.id).Nodup

theorem find?_cons_true {α : Type} (p : α → Bool) (a : α) (l : List α)
    (h : p a = true) : (a :: l).find? p = some a := by
  simp [List.find?, h]

theorem find?_cons_false {α : Type} (p : α → Bool) (a : α) (l : List α)
    (h : p a = false) : (a :: l).find? p = l.find? p := by
  simp [List.find?, h]

theorem addCardUpdatedPile_id (pile : Pile) (cardId : String)
    (categoryName : Option String) :
    (addCardUpdatedPile pile cardId categoryName).id = pile.id := by
  unfold addCardUpdatedPile
  cases h : isPileComplete { pile with cardIds := pile.cardIds ++ [cardId] } <;> simp [h]

theorem addCardUpdatedPile_isComplete (pile : Pile) (cardId : String)
    (categoryName : Option String) :
    (addCardUpdatedPile pile cardId categoryName).isComplete =
      (isPileComplete { pile with cardIds := pile.cardIds ++ [cardId] } ||
        pile.isComplete) := by
  unfold addCardUpdatedPile
  cases h : isPileComplete { pile with cardIds := pile.cardIds ++ [cardId] } <;> simp [h]

theorem countP_setFirstPile (q : Pile → Bool) (pid : String) (np pile : Pile) :
    ∀ l : List Pile, l.find? (fun p => p.id == pid) = some pile →
      (setFirstPile pid np l).countP q + (if q pile then 1 else 0) =
        l.countP q + (if q np then 1 else 0) := by
  intro l
  induction l with
  | nil => intro h; simp at h
  | cons hd tl ih =>
    intro hfind
    cases hh : hd.id == pid with
    | true =>
      rw [find?_cons_true (fun p => p.id == pid) hd tl hh] at hfind
      cases hfind
      simp only [setFirstPile, hh, if_true, List.countP_cons]
      omega
    | false =>
      rw [find?_cons_false (fun p => p.id == pid) hd tl hh] at hfind
      simp only [setFirstPile, hh, Bool.false_eq_true, if_false, List.countP_cons]
      have := ih hfind
      omega

theorem map_id_setFirstPile (pid : String) (np : Pile) (hnp : np.id = pid) :
    ∀ l : List Pile, (setFirstPile pid np l).map Pile.id = l.map Pile.id := by
  intro l
  induction l with
  | nil => rfl
  | cons hd tl ih =>
    cases hh : hd.id == pid with
    | true =>
      simp only [setFirstPile, hh, if_true, List.map_cons]
      rw [hnp, eq_of_beq hh]
    | false =>
      simp only [setFirstPile, hh, Bool.false_eq_true, if_false, List.map_cons, ih]

theorem countP_filter_ne_of_find? (q : Pile → Bool) (pid : String) (pile : Pile) :
    ∀ l : List Pile, (l.map Pile.id).Nodup →
      l.find? (fun p => p.id == pid) = some pile →
      (l.filter (fun p => p.id != pid)).countP q + (if q pile then 1 else 0) =
        l.countP q := by
  intro l
  induction l with
  | nil => intro _ h; simp at h
  | cons hd tl ih =>
    intro hnodup hfind
    rw [List.map_cons, List.nodup_cons] at hnodup
    cases hh : hd.id == pid with
    | true =>
      rw [find?_cons_true (fun p => p.id == pid) hd tl hh] at hfind
      cases hfind
      have hne : ∀ p ∈ tl, (p.id != pid) = true := by
        intro p hp
        have hpne : p.id ≠ pid := by
          intro hcontra
          refine hnodup.1 ?_
          rw [eq_of_beq hh, ← hcontra]
          exact List.mem_map_of_mem Pile.id hp
        simpa [bne_iff_ne] using hpne
      have hbne : (pile.id != pid) = false := by simp [bne, hh]
      rw [List.filter_cons, hbne]
      simp only [Bool.false_eq_true, if_false, List.filter_eq_self.mpr hne,
        List.countP_cons]
    | false =>
      rw [find?_cons_false (fun p => p.id == pid) hd tl hh] at hfind
      have hbne : (hd.id != pid) = true := by simp [bne, hh]
      rw [List.filter_cons, hbne]
      simp only [if_true, List.countP_cons]
      have := ih hnodup.2 hfind
      omega

theorem completedInv_step {s s' : GameState} (hstep : Step s s')
    (hinv : completedInv s) : completedInv s' := by
  obtain ⟨hcc, hnodup⟩ := hinv
  cases hstep with
  | createPile newPileId card1Id card2Id hfresh =>
    cases hc1 : s.cards.find? (fun c => c.id == card1Id) with
    | none => simpa [gameReducer, hc1] using ⟨hcc, hnodup⟩
    | some card1 =>
      cases hc2 : s.cards.find? (fun c => c.id == card2Id) with
      | none => simpa [gameReducer, hc1, hc2] using ⟨hcc, hnodup⟩
      | some card2 =>
        cases hcat : card1.categoryId != card2.categoryId with
        | true => simpa [gameReducer, hc1, hc2, hcat] using ⟨hcc, hnodup⟩
        | false =>
          refine ⟨?_, ?_⟩
          · simp [gameReducer, hc1, hc2, hcat, List.countP_append,
              List.countP_cons, hcc]
          · simp only [gameReducer, hc1, hc2, hcat, Bool.false_eq_true, if_false,
              List.map_append, List.map_cons, List.map_nil]
            rw [List.nodup_append]
            refine ⟨hnodup, List.nodup_singleton _, ?_⟩
            intro a ha hb
            simp only [List.mem_singleton] at hb
            exact hfresh (hb ▸ ha)
  | addCardToPile cardId pileId categoryName =>
    cases hfind : s.piles.find? (fun p => p.id == pileId) with
    | none => simpa [gameReducer, hfind] using ⟨hcc, hnodup⟩
    | some pile =>
      have hpred : (pile.id == pileId) = true := by
        simpa using List.find?_some hfind
      have hpid : pile.id = pileId := eq_of_beq hpred
      have hcount := countP_setFirstPile (fun p => p.isComplete) pileId
        (addCardUpdatedPile pile cardId categoryName) pile s.piles hfind
      have hmap := map_id_setFirstPile pileId
        (addCardUpdatedPile pile cardId categoryName)
        ((addCardUpdatedPile_id pile cardId categoryName).trans hpid) s.piles
      have hUc := addCardUpdatedPile_isComplete pile cardId categoryName
      refine ⟨?_, ?_⟩
      · simp only [gameReducer, hfind]
        cases hold : pile.isComplete with
        | true =>
          have hU : (addCardUpdatedPile pile cardId categoryName).isComplete = true := by
            rw [hUc, hold, Bool.or_true]
          simp only [hold, hU, if_true, if_false, Bool.not_true, Bool.and_false,
            Bool.false_eq_true, hcc] at *
          omega
        | false =>
          cases hU : (addCardUpdatedPile pile cardId categoryName).isComplete with
          | true =>
            simp only [hold, hU, Bool.not_false, Bool.and_true, if_true, if_false,
              Bool.false_eq_true, hcc] at *
            omega
          | false =>
            simp only [hold, hU, Bool.false_and, Bool.false_eq_true, if_false,
              hcc] at *
            omega
      · simp only [gameReducer, hfind, hmap]
        exact hnodup
  | splitPile pileId =>
    cases hfind : s.piles.find? (fun p => p.id == pileId) with
    | none =>
      have hall : ∀ p ∈ s.piles, ¬(p.id == pileId) = true := List.find?_eq_none.mp hfind
      have hfilter : s.piles.filter (fun p => p.id != pileId) = s.piles := by
        rw [List.filter_eq_self]
        intro p hp
        simpa [bne_iff_ne] using hall p hp
      refine ⟨?_, ?_⟩
      · simpa [gameReducer, hfind, hfilter] using hcc
      · simpa [gameReducer, hfilter] using hnodup
    | some pile =>
      have hcount := countP_filter_ne_of_find? (fun p => p.isComplete) pileId pile
        s.piles hnodup hfind
      refine ⟨?_, ?_⟩
      · cases hcompl : pile.isComplete with
        | true =>
          simp only [gameReducer, hfind, hcompl, if_true, hcc] at *
          omega
        | false =>
          simp only [gameReducer, hfind, hcompl, Bool.false_eq_true, if_false,
            hcc] at *
          omega
      · simp only [gameReducer]
        exact ((List.filter_sublist _).map Pile.id).nodup hnodup
  | incrementMistakes => exact ⟨hcc, hnodup⟩
  | resetGame => exact ⟨rfl, List.nodup_nil⟩

theorem completedInv_reachable {cards : List Card} {s : GameState}
    (h : Reachable cards s) : completedInv s := by
  induction h with
  | refl => exact ⟨rfl, List.nodup_nil⟩
  | tail _ hstep ih => exact completedInv_step hstep ih

/-- C1: in every state reachable from the initial state by engine actions,
`completedCount` equals the number of piles whose `isComplete` flag is true. -/
theorem c1_completedCount_invariant (cards : List Card) (s : GameState)
    (h : Reachable cards s) :
    s.completedCount = (s.piles.countP (fun p => p.isComplete) : ℤ) :=
  (completedInv_reachable h).1

/-- Witness for C1 one `CREATE_PILE` step away from an initial state. -/
theorem c1_completedCount_invariant_witness :
    (gameReducer (initState [cardA, cardB])
        (.createPile "pile-1" "card-1" "card-2")).completedCount =
      ((gameReducer (initState [cardA, cardB])
        (.createPile "pile-1" "card-1" "card-2")).piles.countP
          (fun p => p.isComplete) : ℤ) :=
  c1_completedCount_invariant [cardA, cardB] _
    (Relation.ReflTransGen.single
      (Step.createPile (initState [cardA, cardB]) "pile-1" "card-1" "card-2"
        (by decide)))

/-- All card-id occurrences across all piles, in order. -/
def pileCardOccurrences (s : GameState) : List String :=
  (s.piles.map Pile.cardIds).flatten

/-- One gate-cleared transition: pile creation and card addition go through
the `try` helpers (with a fresh generated pile id), plus the ungated
`SPLIT_PILE`, `INCREMENT_MISTAKES` and `RESET_GAME` dispatches. -/
inductive GateStep (cats : List Category) : GameState → GameState → Prop where
  | tryCreate (s : GameState) (newPileId card1Id card2Id : String)
      (hfresh : newPileId ∉ s.piles.map Pile.id) :
      GateStep cats s (tryCreatePile s newPileId card1Id card2Id).1
  | tryAdd (s : GameState) (cardId pileId : String) :
      GateStep cats s (tryAddCardToPile s cats cardId pileId).1
  | split (s : GameState) (pileId : String) :
      GateStep cats s (gameReducer s (.splitPile pileId))
  | incr (s : GameState) :
      GateStep cats s (gameReducer s .incrementMistakes)
  | reset (s : GameState) :
      GateStep cats s (gameReducer s .resetGame)

/-- States reachable from an initial state by gate-cleared transitions. -/
def GateReachable (cats : List Category) (cards : List Card)
    (s : GameState) : Prop :=
  Relation.ReflTransGen (GateStep cats) (initState cards) s

/-- After one accepted `tryCreatePile` on two same-category cards. -/
def c2State1 : GameState :=
  (tryCreatePile (initState [cardA, cardB]) "pile-A" "card-1" "card-2").1

/-- After repeating the same accepted `tryCreatePile`: both cards now sit in
two piles at once. -/
def c2State2 : GameState :=
  (tryCreatePile c2State1 "pile-B" "card-1" "card-2").1

/-- C2 fails: neither the engine nor the try helpers check whether a card is
already in a pile, so two successive successful `tryCreatePile` calls on the
same two cards put each card id into two piles. -/
theorem c2_counterexample :
    (tryCreatePile (initState [cardA, cardB]) "pile-A" "card-1" "card-2").2 = true ∧
    (tryCreatePile c2State1 "pile-B" "card-1" "card-2").2 = true ∧
    GateReachable [] [cardA, cardB] c2State2 ∧
    ¬ (pileCardOccurrences c2State2).Nodup := by
  refine ⟨by decide, by decide, ?_, by decide⟩
  exact Relation.ReflTransGen.tail
    (Relation.ReflTransGen.single
      (GateStep.tryCreate (initState [cardA, cardB]) "pile-A" "card-1" "card-2"
        (by decide)))
    (GateStep.tryCreate c2State1 "pile-B" "card-1" "card-2" (by decide))

/-- One transition guarded the way the UI drives the game: any card handed to
a pile creation or card addition (directly or through a try helper) is not
currently in any pile, and the two creation cards are distinct. -/
inductive UStep : GameState → GameState → Prop where
  | createPile (s : GameState) (newPileId card1Id card2Id : String)
      (h1 : card1Id ∉ pileCardOccurrences s) (h2 : card2Id ∉ pileCardOccurrences s)
      (hne : card1Id ≠ card2Id) :
      UStep s (gameReducer s (.createPile newPileId card1Id card2Id))
  | addCardToPile (s : GameState) (cardId pileId : String)
      (categoryName : Option String) (h : cardId ∉ pileCardOccurrences s) :
      UStep s (gameReducer s (.addCardToPile cardId pileId categoryName))
  | splitPile (s : GameState) (pileId : String) :
      UStep s (gameReducer s (.splitPile pileId))
  | incrementMistakes (s : GameState) :
      UStep s (gameReducer s .incrementMistakes)
  | resetGame (s : GameState) :
      UStep s (gameReducer s .resetGame)
  | tryCreate (s : GameState) (newPileId card1Id card2Id : String)
      (h1 : card1Id ∉ pileCardOccurrences s) (h2 : card2Id ∉ pileCardOccurrences s)
      (hne : card1Id ≠ card2Id) :
      UStep s (tryCreatePile s newPileId card1Id card2Id).1
  | tryAdd (s : GameState) (cats : List Category) (cardId pileId : String)
      (h : cardId ∉ pileCardOccurrences s) :
      UStep s (tryAddCardToPile s cats cardId pileId).1

/-- States reachable by transitions whose card arguments are ungrouped. -/
def UReachable (cards : List Card) (s : GameState) : Prop :=
  Relation.ReflTransGen UStep (initState cards) s

theorem addCardUpdatedPile_cardIds (pile : Pile) (cardId : String)
    (categoryName : Option String) :
    (addCardUpdatedPile pile cardId categoryName).cardIds =
      pile.cardIds ++ [cardId] := by
  unfold addCardUpdatedPile
  cases h : isPileComplete { pile with cardIds := pile.cardIds ++ [cardId] } <;> simp [h]

theorem count_join_setFirstPile (pid : String) (np pile : Pile) (cid : String) :
    ∀ l : List Pile, l.find? (fun p => p.id == pid) = some pile →
      ((setFirstPile pid np l).map Pile.cardIds).flatten.count cid +
          pile.cardIds.count cid =
        (l.map Pile.cardIds).flatten.count cid + np.cardIds.count cid := by
  intro l
  induction l with
  | nil => intro h; simp at h
  | cons hd tl ih =>
    intro hfind
    cases hh : hd.id == pid with
    | true =>
      rw [find?_cons_true (fun p => p.id == pid) hd tl hh] at hfind
      cases hfind
      simp only [setFirstPile, hh, if_true, List.map_cons, List.flatten_cons,
        List.count_append]
      omega
    | false =>
      rw [find?_cons_false (fun p => p.id == pid) hd tl hh] at hfind
      simp only [setFirstPile, hh, Bool.false_eq_true, if_false, List.map_cons,
        List.flatten_cons, List.count_append]
      have := ih hfind
      omega

theorem join_map_filter_sublist (q : Pile → Bool) :
    ∀ l : List Pile,
      ((l.filter q).map Pile.cardIds).flatten.Sublist ((l.map Pile.cardIds).flatten) := by
  intro l
  induction l with
  | nil => simp
  | cons hd tl ih =>
    rw [List.filter_cons]
    cases hq : q hd with
    | true =>
      simp only [if_true, List.map_cons, List.flatten_cons]
      exact ih.append_left hd.cardIds
    | false =>
      simp only [Bool.false_eq_true, if_false, List.map_cons, List.flatten_cons]
      exact ih.trans (List.sublist_append_right hd.cardIds _)

/-- Each card id occurs at most once across all piles. -/
def cardsUniqueInPiles (s : GameState) : Prop :=
  (pileCardOccurrences s).Nodup

theorem cardsUnique_createPile (s : GameState) (pid c1 c2 : String)
    (h1 : c1 ∉ pileCardOccurrences s) (h2 : c2 ∉ pileCardOccurrences s)
    (hne : c1 ≠ c2) (hinv : cardsUniqueInPiles s) :
    cardsUniqueInPiles (gameReducer s (.createPile pid c1 c2)) := by
  cases hc1 : s.cards.find? (fun c => c.id == c1) with
  | none => simpa [cardsUniqueInPiles, pileCardOccurrences, gameReducer, hc1] using hinv
  | some card1 =>
    cases hc2 : s.cards.find? (fun c => c.id == c2) with
    | none =>
      simpa [cardsUniqueInPiles, pileCardOccurrences, gameReducer, hc1, hc2] using hinv
    | some card2 =>
      cases hcat : card1.categoryId != card2.categoryId with
      | true =>
        simpa [cardsUniqueInPiles, pileCardOccurrences, gameReducer, hc1, hc2,
          hcat] using hinv
      | false =>
        simp only [cardsUniqueInPiles, pileCardOccurrences, gameReducer, hc1, hc2,
          hcat, Bool.false_eq_true, if_false, List.map_append, List.map_cons,
          List.map_nil, List.flatten_append]
        rw [List.nodup_append]
        refine ⟨hinv, by simp [hne], ?_⟩
        intro a ha hb
        simp only [List.flatten_cons, List.flatten_nil, List.append_nil,
          List.mem_cons, List.not_mem_nil, or_false] at hb
        rcases hb with rfl | rfl
        · exact h1 ha
        · exact h2 ha

theorem cardsUnique_addCard (s : GameState) (cid pid : String)
    (cn : Option String) (h : cid ∉ pileCardOccurrences s)
    (hinv : cardsUniqueInPiles s) :
    cardsUniqueInPiles (gameReducer s (.addCardToPile cid pid cn)) := by
  cases hfind : s.piles.find? (fun p => p.id == pid) with
  | none => simpa [cardsUniqueInPiles, pileCardOccurrences, gameReducer, hfind] using hinv
  | some pile =>
    have hcount := fun x => count_join_setFirstPile pid
      (addCardUpdatedPile pile cid cn) pile x s.piles hfind
    have hnp : ∀ x : String, (addCardUpdatedPile pile cid cn).cardIds.count x =
        pile.cardIds.count x + if cid = x then 1 else 0 := by
      intro x
      rw [addCardUpdatedPile_cardIds, List.count_append, List.count_singleton']
    rw [cardsUniqueInPiles, pileCardOccurrences] at hinv ⊢
    simp only [gameReducer, hfind]
    rw [List.nodup_iff_count_le_one] at hinv ⊢
    intro x
    have hx := hcount x
    rw [hnp x] at hx
    by_cases hxe : cid = x
    · subst hxe
      have hzero : ((s.piles.map Pile.cardIds).flatten).count cid = 0 :=
        List.count_eq_zero.mpr h
      simp only [eq_self_iff_true, if_true] at hx
      omega
    · have := hinv x
      simp only [hxe, if_false] at hx
      omega

theorem cardsUnique_split (s : GameState) (pid : String)
    (hinv : cardsUniqueInPiles s) :
    cardsUniqueInPiles (gameReducer s (.splitPile pid)) := by
  rw [cardsUniqueInPiles, pileCardOccurrences] at hinv ⊢
  simp only [gameReducer]
  exact (join_map_filter_sublist (fun p => p.id != pid) s.piles).nodup hinv

theorem cardsUnique_ustep {s s' : GameState} (hstep : UStep s s')
    (hinv : cardsUniqueInPiles s) : cardsUniqueInPiles s' := by
  cases hstep with
  | createPile newPileId card1Id card2Id h1 h2 hne =>
    exact cardsUnique_createPile s newPileId card1Id card2Id h1 h2 hne hinv
  | addCardToPile cardId pileId categoryName h =>
    exact cardsUnique_addCard s cardId pileId categoryName h hinv
  | splitPile pileId => exact cardsUnique_split s pileId hinv
  | incrementMistakes => exact hinv
  | resetGame => exact List.nodup_nil
  | tryCreate newPileId card1Id card2Id h1 h2 hne =>
    cases hc1 : s.cards.find? (fun c => c.id == card1Id) with
    | none => simpa [tryCreatePile, hc1] using hinv
    | some card1 =>
      cases hc2 : s.cards.find? (fun c => c.id == card2Id) with
      | none => simpa [tryCreatePile, hc1, hc2] using hinv
      | some card2 =>
        cases hcat : card1.categoryId != card2.categoryId with
        | true =>
          simpa [cardsUniqueInPiles, pileCardOccurrences, tryCreatePile, hc1, hc2,
            hcat, gameReducer] using hinv
        | false =>
          have := cardsUnique_createPile s newPileId card1Id card2Id h1 h2 hne hinv
          simpa [tryCreatePile, hc1, hc2, hcat] using this
  | tryAdd cats cardId pileId h =>
    cases hc : s.cards.find? (fun c => c.id == cardId) with
    | none => simpa [tryAddCardToPile, hc] using hinv
    | some card =>
      cases hp : s.piles.find? (fun p => p.id == pileId) with
      | none => simpa [tryAddCardToPile, hc, hp] using hinv
      | some pile =>
        cases hcomp : pile.isComplete with
        | true => simpa [tryAddCardToPile, hc, hp, hcomp] using hinv
        | false =>
          cases hgate : canAddCardToPile card pile s.cards with
          | false =>
            simpa [cardsUniqueInPiles, pileCardOccurrences, tryAddCardToPile, hc,
              hp, hcomp, hgate, gameReducer] using hinv
          | true =>
            have := cardsUnique_addCard s cardId pileId
              (strFalsyToNone (if pile.cardIds.length + 1 == 45 then
                getCategoryName card.categoryId cats else none)) h hinv
            simpa [tryAddCardToPile, hc, hp, hcomp, hgate] using this

/-- C2 amended: provided every card handed to a pile creation or card addition
(directly or via a try helper) is not already in any pile and the two creation
cards are distinct, every reachable state has each card id in at most one pile
and at most once overall. -/
theorem c2_amended_card_uniqueness (cards : List Card) (s : GameState)
    (h : UReachable cards s) :
    ∀ cid : String, (pileCardOccurrences s).count cid ≤ 1 := by
  have hinv : cardsUniqueInPiles s := by
    induction h with
    | refl => exact List.nodup_nil
    | tail _ hstep ih => exact cardsUnique_ustep hstep ih
  exact List.nodup_iff_count_le_one.mp hinv

/-- Witness for C2's amended claim one guarded creation step from an initial
state. -/
theorem c2_amended_card_uniqueness_witness :
    (pileCardOccurrences
      (gameReducer (initState [cardA, cardB])
        (.createPile "pile-A" "card-1" "card-2"))).count "card-1" ≤ 1 :=
  c2_amended_card_uniqueness [cardA, cardB] _
    (Relation.ReflTransGen.single
      (UStep.createPile (initState [cardA, cardB]) "pile-A" "card-1" "card-2"
        (by decide) (by decide) (by decide)))
    "card-1"

/-- Equality of `Except` results is decidable componentwise (needed to
evaluate loader runs on concrete datasets). -/
instance decEqExcept {ε α : Type} [DecidableEq ε] [DecidableEq α] :
    DecidableEq (Except ε α) := fun x y =>
  match x, y with
  | .ok a, .ok b =>
    if h : a = b then isTrue (by rw [h])
    else isFalse (by intro hc; cases hc; exact h rfl)
  | .error a, .error b =>
    if h : a = b then isTrue (by rw [h])
    else isFalse (by intro hc; cases hc; exact h rfl)
  | .ok a, .error b => isFalse (by intro hc; cases hc)
  | .error a, .ok b => isFalse (by intro hc; cases hc)

/-- `GameData` from `src/lib/types/game.ts`. -/
structure GameData where
  categories : List Category
  cards : List Card
deriving DecidableEq, Repr

/-- Raw YAML card (`YAMLCategory.cards` entries in `game-data-loader.ts`):
`none` models a missing or non-string field. -/
structure RawCard where
  id : Option String
  title : Option String
deriving DecidableEq, Repr

/-- Raw YAML category (`YAMLCategory` in `game-data-loader.ts`). -/
structure RawCategory where
  id : Option String
  name : Option String
  cards : Option (List RawCard)
deriving DecidableEq, Repr

/-- Raw YAML document (`YAMLData` in `game-data-loader.ts`). -/
structure RawData where
  categories : Option (List RawCategory)
deriving DecidableEq, Repr

/-- JS truthiness of a possibly-missing string: `false` for missing,
non-string and empty values (the `!x || typeof x !== 'string'` tests). -/
def jsTruthyStr : Option String → Bool
  | some s => s != ""
  | none => false

/-- One iteration body of the Fisher-Yates loop:
`[shuffled[i], shuffled[j]] = [shuffled[j], shuffled[i]]`.  In the source both
indices are always in range (`0 ≤ j ≤ i < length`); the fall-through branch
totalizes the model for out-of-range oracles. -/
def swapL {α : Type} (l : List α) (i j : Nat) : List α :=
  match l[i]?, l[j]? with
  | some xi, some xj => (l.set i xj).set j xi
  | _, _ => l

/-- The Fisher-Yates `for (let i = n - 1; i > 0; i--)` loop of `shuffleArray`,
with the `Math.floor(Math.random() * (i + 1))` draws supplied by `rand`. -/
def fyLoop {α : Type} (rand : Nat → Nat) : Nat → List α → List α
  | 0, l => l
  | i + 1, l => fyLoop rand i (swapL l (i + 1) (rand (i + 1)))

/-- `shuffleArray` from `src/lib/game-data-loader.ts`: copies the array and
runs the Fisher-Yates loop from index `length - 1` down to `1`. -/
def shuffleArray {α : Type} (rand : Nat → Nat) (array : List α) : List α :=
  fyLoop rand (array.length - 1) array

/-- The per-card shape loop of `validateGameData` (index-carrying). -/
def validateCards (catId : String) : Nat → List RawCard → Except String Unit
  | _, [] => .ok ()
  | cardIndex, card :: rest =>
    if !jsTruthyStr card.id then
      .error ("Card at index " ++ toString cardIndex ++ " in category \"" ++
        catId ++ "\" missing valid \"id\" field")
    else if !jsTruthyStr card.title then
      .error ("Card \"" ++ card.id.getD "" ++ "\" in category \"" ++ catId ++
        "\" missing valid \"title\" field")
    else validateCards catId (cardIndex + 1) rest

/-- The per-category shape and cardinality loop of `validateGameData`. -/
def validateCategories (skipStrictValidation : Bool) :
    Nat → List RawCategory → Except String Unit
  | _, [] => .ok ()
  | index, category :: rest =>
    if !jsTruthyStr category.id then
      .error ("Category at index " ++ toString index ++ " missing valid \"id\" field")
    else if !jsTruthyStr category.name then
      .error ("Category \"" ++ category.id.getD "" ++ "\" missing valid \"name\" field")
    else
      match category.cards with
      | none => .error ("Category \"" ++ category.id.getD "" ++ "\" missing \"cards\" array")
      | some cds =>
        if !skipStrictValidation && cds.length != 45 then
          .error ("Category \"" ++ category.id.getD "" ++ "\" has " ++
            toString cds.length ++ " cards, but requires exactly 45")
        else
          match validateCards (category.id.getD "") 0 cds with
          | .error e => .error e
          | .ok () => validateCategories skipStrictValidation (index + 1) rest

/-- The card id of a raw card as the validated code reads it (`card.id`;
after the shape checks the default never fires). -/
def rawCardId (card : RawCard) : String := card.id.getD ""

/-- The category id of a raw category as the validated code reads it. -/
def rawCatId (category : RawCategory) : String := category.id.getD ""

/-- The inner loop of the duplicate-card-id check: the `Set` of already seen
ids is modelled as the list of seen ids. -/
def addCardIds (seen : List String) : List RawCard → Except String (List String)
  | [] => .ok seen
  | card :: rest =>
    let cid := rawCardId card
    if cid ∈ seen then .error ("Duplicate card ID found: \"" ++ cid ++ "\"")
    else addCardIds (cid :: seen) rest

/-- The duplicate-card-id check of `validateGameData`, across all categories. -/
def checkDupCardIds (seen : List String) : List RawCategory → Except String Unit
  | [] => .ok ()
  | category :: rest =>
    match addCardIds seen (category.cards.getD []) with
    | .error e => .error e
    | .ok seen' => checkDupCardIds seen' rest

/-- `validateGameData` from `src/lib/game-data-loader.ts`:
`new Set(ids).size !== ids.length` is modelled through `List.dedup`. -/
def validateGameData (data : RawData) (skipStrictValidation : Bool) :
    Except String Unit :=
  match data.categories with
  | none => .error "YAML data must have a \"categories\" array"
  | some categories =>
    if !skipStrictValidation && categories.length != 45 then
      .error ("Expected 45 categories, but found " ++ toString categories.length ++
        ". Game requires exactly 45 categories with 45 cards each (2025 total).")
    else
      match validateCategories skipStrictValidation 0 categories with
      | .error e => .error e
      | .ok () =>
        match checkDupCardIds [] categories with
        | .error e => .error e
        | .ok () =>
          if (categories.map rawCatId).dedup.length != categories.length then
            .error "Duplicate category IDs found"
          else .ok ()

/-- The flattening step of `loadGameData`: all cards of all categories with
`categoryId` injected from the owning category. -/
def flattenedCards (data : RawData) : List Card :=
  (data.categories.getD []).flatMap (fun category =>
    (category.cards.getD []).map (fun card =>
      { id := rawCardId card, title := card.title.getD "",
        categoryId := rawCatId category }))

/-- `loadGameData` from `src/lib/game-data-loader.ts`, from the already-parsed
document on: validate, transform the categories, flatten the cards and
shuffle them.  (File lookup and YAML parsing are I/O outside this model.) -/
def loadGameData (data : RawData) (skipStrictValidation : Bool)
    (rand : Nat → Nat) : Except String GameData :=
  match validateGameData data skipStrictValidation with
  | .error e => .error e
  | .ok () =>
    let categories : List Category := (data.categories.getD []).map (fun cat =>
      { id := rawCatId cat, name := cat.name.getD "" })
    .ok { categories := categories,
          cards := shuffleArray rand (flattenedCards data) }

theorem cons_get_set_perm {α : Type} :
    ∀ (l : List α) (k : Nat) (a : α) (hk : k < l.length),
      ((l.get ⟨k, hk⟩) :: l.set k a).Perm (a :: l) := by
  intro l
  induction l with
  | nil => intro k a hk; simp at hk
  | cons hd tl ih =>
    intro k a hk
    cases k with
    | zero => simpa using List.Perm.swap a hd tl
    | succ m =>
      have hm : m < tl.length := by simpa using hk
      have h1 : ((hd :: tl).get ⟨m + 1, hk⟩ :: (hd :: tl).set (m + 1) a) =
          tl.get ⟨m, hm⟩ :: hd :: tl.set m a := by simp
      have s1 : (tl.get ⟨m, hm⟩ :: hd :: tl.set m a).Perm
          (hd :: tl.get ⟨m, hm⟩ :: tl.set m a) := List.Perm.swap _ _ _
      have s2 : (hd :: tl.get ⟨m, hm⟩ :: tl.set m a).Perm (hd :: a :: tl) :=
        (ih m a hm).cons hd
      have s3 : (hd :: a :: tl).Perm (a :: hd :: tl) := List.Perm.swap _ _ _
      rw [h1]
      exact s1.trans (s2.trans s3)

theorem set_set_perm {α : Type} :
    ∀ (l : List α) (i j : Nat) (hi : i < l.length) (hj : j < l.length),
      ((l.set i (l.get ⟨j, hj⟩)).set j (l.get ⟨i, hi⟩)).Perm l := by
  intro l
  induction l with
  | nil => intro i j hi; simp at hi
  | cons hd tl ih =>
    intro i j hi hj
    cases i with
    | zero =>
      cases j with
      | zero => simp
      | succ k =>
        have hk : k < tl.length := by simpa using hj
        simpa using cons_get_set_perm tl k hd hk
    | succ m =>
      cases j with
      | zero =>
        have hm : m < tl.length := by simpa using hi
        simpa using cons_get_set_perm tl m hd hm
      | succ k =>
        have hm : m < tl.length := by simpa using hi
        have hk : k < tl.length := by simpa using hj
        simpa using (ih m k hm hk).cons hd

theorem swapL_perm {α : Type} (l : List α) (i j : Nat) : (swapL l i j).Perm l := by
  unfold swapL
  split
  · rename_i xi xj hi hj
    obtain ⟨hi', hgi⟩ := List.getElem?_eq_some_iff.mp hi
    obtain ⟨hj', hgj⟩ := List.getElem?_eq_some_iff.mp hj
    have hxi : l.get ⟨i, hi'⟩ = xi := by simpa [List.get_eq_getElem] using hgi
    have hxj : l.get ⟨j, hj'⟩ = xj := by simpa [List.get_eq_getElem] using hgj
    rw [← hxi, ← hxj]
    exact set_set_perm l i j hi' hj'
  · exact List.Perm.refl l

theorem fyLoop_perm {α : Type} (rand : Nat → Nat) :
    ∀ (i : Nat) (l : List α), (fyLoop rand i l).Perm l := by
  intro i
  induction i with
  | zero => intro l; exact List.Perm.refl l
  | succ m ih =>
    intro l
    exact (ih (swapL l (m + 1) (rand (m + 1)))).trans
      (swapL_perm l (m + 1) (rand (m + 1)))

theorem shuffleArray_perm {α : Type} (rand : Nat → Nat) (array : List α) :
    (shuffleArray rand array).Perm array :=
  fyLoop_perm rand (array.length - 1) array

theorem loadGameData_ok_cards {data : RawData} {skip : Bool} {rand : Nat → Nat}
    {g : GameData} (h : loadGameData data skip rand = .ok g) :
    g.cards = shuffleArray rand (flattenedCards data) ∧
    g.categories = (data.categories.getD []).map (fun cat =>
      { id := rawCatId cat, name := cat.name.getD "" }) := by
  unfold loadGameData at h
  cases hval : validateGameData data skip with
  | error e => rw [hval] at h; exact absurd h (by simp)
  | ok u =>
    cases u
    rw [hval] at h
    simp only [Except.ok.injEq] at h
    rw [← h]
    exact ⟨rfl, rfl⟩

/-- A tiny well-formed relaxed-mode dataset. -/
def tinyRawData : RawData :=
  { categories := some [
      { id := some "cat-1", name := some "Category One",
        cards := some [
          { id := some "card-1", title := some "T1" },
          { id := some "card-2", title := some "T2" } ] } ] }

/-- What loading `tinyRawData` with the constant-zero oracle produces. -/
def tinyLoaded : GameData :=
  { categories := [{ id := "cat-1", name := "Category One" }],
    cards := [{ id := "card-2", title := "T2", categoryId := "cat-1" },
              { id := "card-1", title := "T1", categoryId := "cat-1" }] }

/-- C8: for every dataset accepted by `load`, the returned card list is a
permutation of the flattened source cards, independently of the random
choices: two loads always carry the same multiset of
`(id, title, categoryId)` triples, and the shuffle itself only permutes. -/
theorem c8_load_is_permutation (data : RawData) (skip : Bool)
    (r1 r2 : Nat → Nat) (g1 g2 : GameData)
    (h1 : loadGameData data skip r1 = .ok g1)
    (h2 : loadGameData data skip r2 = .ok g2) :
    g1.cards.Perm (flattenedCards data) ∧
    g1.cards.Perm g2.cards ∧
    (shuffleArray r1 (flattenedCards data)).Perm (flattenedCards data) := by
  have e1 := (loadGameData_ok_cards h1).1
  have e2 := (loadGameData_ok_cards h2).1
  have p1 : g1.cards.Perm (flattenedCards data) := by
    rw [e1]; exact shuffleArray_perm r1 (flattenedCards data)
  have p2 : g2.cards.Perm (flattenedCards data) := by
    rw [e2]; exact shuffleArray_perm r2 (flattenedCards data)
  exact ⟨p1, p1.trans p2.symm, shuffleArray_perm r1 (flattenedCards data)⟩

/-- Witness for C8 on a concrete two-card relaxed-mode dataset. -/
theorem c8_load_is_permutation_witness :
    tinyLoaded.cards.Perm (flattenedCards tinyRawData) ∧
    tinyLoaded.cards.Perm tinyLoaded.cards ∧
    (shuffleArray (fun _ => 0) (flattenedCards tinyRawData)).Perm
      (flattenedCards tinyRawData) :=
  c8_load_is_permutation tinyRawData true (fun _ => 0) (fun _ => 0)
    tinyLoaded tinyLoaded (by decide) (by decide)

/-- Spec-side card shape: string (truthy) `id` and `title`. -/
def shapeOkCard (card : RawCard) : Bool :=
  jsTruthyStr card.id && jsTruthyStr card.title

/-- Spec-side category shape: string `id` and `name`, a `cards` array of
well-shaped cards. -/
def shapeOkCategory (category : RawCategory) : Bool :=
  jsTruthyStr category.id && jsTruthyStr category.name &&
    (match category.cards with
     | some cds => cds.all shapeOkCard
     | none => false)

/-- The per-category strict-mode cardinality condition. -/
def catCountOk (category : RawCategory) : Bool :=
  (category.cards.getD []).length == 45

/-- Spec-side document shape: a `categories` array of well-shaped categories. -/
def shapeOk (data : RawData) : Bool :=
  match data.categories with
  | some categories => categories.all shapeOkCategory
  | none => false

/-- Spec-side strict-mode cardinality: 45 categories of 45 cards each. -/
def strictOk (data : RawData) : Bool :=
  ((data.categories.getD []).length == 45) &&
    (data.categories.getD []).all catCountOk

/-- All card ids of the document, in source order. -/
def allCardIds (data : RawData) : List String :=
  (data.categories.getD []).flatMap (fun c => (c.cards.getD []).map rawCardId)

/-- All category ids of the document, in source order. -/
def catIds (data : RawData) : List String :=
  (data.categories.getD []).map rawCatId

theorem except_seq_ok (x : Except String Unit) (k : Except String Unit) :
    (match x with | .error e => Except.error e | .ok () => k) = Except.ok () ↔
      (x = Except.ok () ∧ k = Except.ok ()) := by
  cases x with
  | error e => simp
  | ok u => cases u; simp

theorem validateCards_ok_iff (catId : String) :
    ∀ (cds : List RawCard) (i : Nat),
      validateCards catId i cds = .ok () ↔ cds.all shapeOkCard = true := by
  intro cds
  induction cds with
  | nil => intro i; simp [validateCards]
  | cons c rest ih =>
    intro i
    simp only [validateCards, List.all_cons]
    cases hid : jsTruthyStr c.id with
    | false => simp [shapeOkCard, hid]
    | true =>
      cases htitle : jsTruthyStr c.title with
      | false => simp [shapeOkCard, hid, htitle]
      | true => simp [shapeOkCard, hid, htitle, ih (i + 1)]

theorem validateCategories_ok_iff (skip : Bool) :
    ∀ (cats : List RawCategory) (i : Nat),
      validateCategories skip i cats = .ok () ↔
        cats.all (fun c => shapeOkCategory c && (skip || catCountOk c)) = true := by
  intro cats
  induction cats with
  | nil => intro i; simp [validateCategories]
  | cons c rest ih =>
    intro i
    simp only [validateCategories, List.all_cons]
    cases hid : jsTruthyStr c.id with
    | false => simp [shapeOkCategory, hid]
    | true =>
      cases hname : jsTruthyStr c.name with
      | false => simp [shapeOkCategory, hid, hname]
      | true =>
        cases hcards : c.cards with
        | none => simp [shapeOkCategory, hid, hname, hcards]
        | some cds =>
          simp only [Bool.not_true, Bool.false_eq_true, if_false]
          cases hskip : skip with
          | true =>
            rw [hskip] at ih
            simp only [Bool.not_true, Bool.false_and, Bool.false_eq_true, if_false]
            rw [except_seq_ok, validateCards_ok_iff, ih (i + 1)]
            simp [shapeOkCategory, hid, hname, hcards]
          | false =>
            rw [hskip] at ih
            cases hlen : cds.length == 45 with
            | false =>
              have hbang : (!false && (cds.length != 45)) = true := by
                simp [bne, hlen]
              rw [hbang]
              simp only [if_true]
              constructor
              · intro h; exact absurd h (by simp)
              · intro h
                exfalso
                simp only [Bool.and_eq_true, Bool.false_or] at h
                have hcnt := h.1.2
                simp only [catCountOk, hcards, Option.getD_some] at hcnt
                rw [hlen] at hcnt
                exact absurd hcnt (by simp)
            | true =>
              have hbang : (!false && (cds.length != 45)) = false := by
                simp [bne, hlen]
              rw [hbang]
              simp only [Bool.false_eq_true, if_false]
              rw [except_seq_ok, validateCards_ok_iff, ih (i + 1)]
              simp [shapeOkCategory, catCountOk, hid, hname, hcards, hlen]

theorem addCardIds_ok_mem :
    ∀ (cds : List RawCard) (seen r : List String),
      addCardIds seen cds = .ok r →
      ∀ x, x ∈ r ↔ x ∈ seen ∨ x ∈ cds.map rawCardId := by
  intro cds
  induction cds with
  | nil =>
    intro seen r h x
    simp only [addCardIds, Except.ok.injEq] at h
    subst h
    simp
  | cons c rest ih =>
    intro seen r h x
    simp only [addCardIds] at h
    by_cases hmem : rawCardId c ∈ seen
    · rw [if_pos hmem] at h
      exact absurd h (by simp)
    · rw [if_neg hmem] at h
      have hx := ih (rawCardId c :: seen) r h x
      simp only [List.mem_cons] at hx
      simp only [List.map_cons, List.mem_cons]
      rw [hx]
      tauto

theorem addCardIds_ok_iff :
    ∀ (cds : List RawCard) (seen : List String),
      (∃ r, addCardIds seen cds = .ok r) ↔
        ((cds.map rawCardId).Nodup ∧ ∀ x ∈ cds.map rawCardId, x ∉ seen) := by
  intro cds
  induction cds with
  | nil => intro seen; simp [addCardIds]
  | cons c rest ih =>
    intro seen
    simp only [addCardIds, List.map_cons, List.nodup_cons]
    by_cases hmem : rawCardId c ∈ seen
    · rw [if_pos hmem]
      constructor
      · rintro ⟨r, hr⟩; exact absurd hr (by simp)
      · rintro ⟨_, hall⟩
        exact absurd hmem (hall _ (List.mem_cons_self _ _))
    · rw [if_neg hmem, ih (rawCardId c :: seen)]
      constructor
      · rintro ⟨hnd, hall⟩
        have hcnotin : rawCardId c ∉ rest.map rawCardId := by
          intro hin
          exact hall _ hin (List.mem_cons_self _ _)
        refine ⟨⟨hcnotin, hnd⟩, ?_⟩
        intro x hx
        rcases List.mem_cons.mp hx with rfl | hxr
        · exact hmem
        · intro hxs
          exact hall x hxr (List.mem_cons.mpr (Or.inr hxs))
      · rintro ⟨⟨hcnotin, hnd⟩, hall⟩
        refine ⟨hnd, ?_⟩
        intro x hx hxcs
        rcases List.mem_cons.mp hxcs with rfl | hxs
        · exact hcnotin hx
        · exact hall x (List.mem_cons.mpr (Or.inr hx)) hxs

theorem checkDupCardIds_ok_iff :
    ∀ (cats : List RawCategory) (seen : List String),
      checkDupCardIds seen cats = .ok () ↔
        ((cats.flatMap (fun c => (c.cards.getD []).map rawCardId)).Nodup ∧
         ∀ x ∈ cats.flatMap (fun c => (c.cards.getD []).map rawCardId), x ∉ seen) := by
  intro cats
  induction cats with
  | nil => intro seen; simp [checkDupCardIds]
  | cons c rest ih =>
    intro seen
    simp only [checkDupCardIds, List.flatMap_cons]
    cases haddIds : addCardIds seen (c.cards.getD []) with
    | error e =>
      constructor
      · intro h; exact absurd h (by simp)
      · rintro ⟨hnd, hall⟩
        exfalso
        have hok : ∃ r, addCardIds seen (c.cards.getD []) = .ok r := by
          rw [addCardIds_ok_iff]
          refine ⟨(List.nodup_append.mp hnd).1, ?_⟩
          intro x hx
          exact hall x (List.mem_append.mpr (Or.inl hx))
        rw [haddIds] at hok
        obtain ⟨r, hr⟩ := hok
        exact absurd hr (by simp)
    | ok seenNext =>
      rw [ih seenNext]
      have hmemr := addCardIds_ok_mem (c.cards.getD []) seen seenNext haddIds
      have hok : ∃ r, addCardIds seen (c.cards.getD []) = .ok r := ⟨seenNext, haddIds⟩
      rw [addCardIds_ok_iff] at hok
      obtain ⟨hnd1, hdisj1⟩ := hok
      rw [List.nodup_append]
      constructor
      · rintro ⟨hnd2, hall2⟩
        refine ⟨⟨hnd1, hnd2, ?_⟩, ?_⟩
        · intro a ha hb
          exact hall2 a hb ((hmemr a).mpr (Or.inr ha))
        · intro x hx
          rcases List.mem_append.mp hx with h1 | h2
          · exact hdisj1 x h1
          · intro hseen
            exact hall2 x h2 ((hmemr x).mpr (Or.inl hseen))
      · rintro ⟨⟨hnda, hndb, hdisj⟩, hall⟩
        refine ⟨hndb, ?_⟩
        intro x hx hseenNext
        rcases (hmemr x).mp hseenNext with h1 | h2
        · exact hall x (List.mem_append.mpr (Or.inr hx)) h1
        · exact hdisj h2 hx

theorem dedup_length_beq_iff (l : List String) :
    (l.dedup.length == l.length) = true ↔ l.Nodup := by
  rw [beq_iff_eq]
  constructor
  · intro h
    rw [← List.dedup_eq_self]
    exact (List.dedup_sublist l).eq_of_length h
  · intro h
    rw [List.dedup_eq_self.mpr h]

theorem load_ok_validation_iff (data : RawData) (skip : Bool) (rand : Nat → Nat) :
    (∃ g, loadGameData data skip rand = .ok g) ↔
      (shapeOk data = true ∧ (allCardIds data).Nodup ∧ (catIds data).Nodup ∧
       (skip = false → strictOk data = true)) := by
  have hload : (∃ g, loadGameData data skip rand = .ok g) ↔
      validateGameData data skip = .ok () := by
    unfold loadGameData
    cases hval : validateGameData data skip with
    | error e =>
      constructor
      · rintro ⟨g, hg⟩; exact absurd hg (by simp)
      · intro h; exact absurd h (by simp)
    | ok u =>
      cases u
      constructor
      · intro _; rfl
      · intro _; exact ⟨_, rfl⟩
  rw [hload]
  unfold validateGameData
  cases hcats : data.categories with
  | none =>
    simp only [shapeOk, hcats]
    constructor
    · intro h; exact absurd h (by simp)
    · rintro ⟨h, _⟩; exact absurd h (by simp)
  | some cats =>
    have hshape : shapeOk data = cats.all shapeOkCategory := by
      simp [shapeOk, hcats]
    have hall : allCardIds data =
        cats.flatMap (fun c => (c.cards.getD []).map rawCardId) := by
      simp [allCardIds, hcats]
    have hcat : catIds data = cats.map rawCatId := by
      simp [catIds, hcats]
    have hstrict : strictOk data =
        ((cats.length == 45) && cats.all catCountOk) := by
      simp [strictOk, hcats]
    dsimp only
    cases hskip : skip with
    | true =>
      have hbang : (!true && (cats.length != 45)) = false := by simp
      rw [hbang]
      simp only [Bool.false_eq_true, if_false]
      rw [except_seq_ok, except_seq_ok, validateCategories_ok_iff,
        checkDupCardIds_ok_iff]
      have hdedup : ((if (cats.map rawCatId).dedup.length != cats.length then
          Except.error "Duplicate category IDs found"
          else Except.ok ()) = Except.ok ()) ↔ (cats.map rawCatId).Nodup := by
        cases hd : (cats.map rawCatId).dedup.length == cats.length with
        | true =>
          have : ((cats.map rawCatId).dedup.length != cats.length) = false := by
            simp [bne, hd]
          rw [this]
          simp only [Bool.false_eq_true, if_false, true_iff]
          have := (dedup_length_beq_iff (cats.map rawCatId)).mp
          simp only [List.length_map] at this ⊢
          exact this (by simpa using hd)
        | false =>
          have : ((cats.map rawCatId).dedup.length != cats.length) = true := by
            simp [bne, hd]
          rw [this]
          simp only [if_true]
          constructor
          · intro h; exact absurd h (by simp)
          · intro h
            exfalso
            have h2 := (dedup_length_beq_iff (cats.map rawCatId)).mpr h
            simp only [List.length_map] at h2
            rw [hd] at h2
            exact absurd h2 (by simp)
      rw [hdedup, hshape, hall, hcat]
      simp
    | false =>
      cases hcnt : cats.length == 45 with
      | false =>
        have hbang : (!false && (cats.length != 45)) = true := by simp [bne, hcnt]
        rw [hbang]
        simp only [if_true]
        constructor
        · intro h; exact absurd h (by simp)
        · rintro ⟨_, _, _, hs⟩
          have := hs (by trivial)
          rw [hstrict] at this
          simp only [Bool.and_eq_true] at this
          rw [hcnt] at this
          exact absurd this.1 (by simp)
      | true =>
        have hbang : (!false && (cats.length != 45)) = false := by simp [bne, hcnt]
        rw [hbang]
        simp only [Bool.false_eq_true, if_false]
        rw [except_seq_ok, except_seq_ok, validateCategories_ok_iff,
          checkDupCardIds_ok_iff]
        have hdedup : ((if (cats.map rawCatId).dedup.length != cats.length then
            Except.error "Duplicate category IDs found"
            else Except.ok ()) = Except.ok ()) ↔ (cats.map rawCatId).Nodup := by
          cases hd : (cats.map rawCatId).dedup.length == cats.length with
          | true =>
            have : ((cats.map rawCatId).dedup.length != cats.length) = false := by
              simp [bne, hd]
            rw [this]
            simp only [Bool.false_eq_true, if_false, true_iff]
            have := (dedup_length_beq_iff (cats.map rawCatId)).mp
            simp only [List.length_map] at this ⊢
            exact this (by simpa using hd)
          | false =>
            have : ((cats.map rawCatId).dedup.length != cats.length) = true := by
              simp [bne, hd]
            rw [this]
            simp only [if_true]
            constructor
            · intro h; exact absurd h (by simp)
            · intro h
              exfalso
              have h2 := (dedup_length_beq_iff (cats.map rawCatId)).mpr h
              simp only [List.length_map] at h2
              rw [hd] at h2
              exact absurd h2 (by simp)
        rw [hdedup, hshape, hall, hcat, hstrict]
        constructor
        · rintro ⟨hb, ⟨hnd, _⟩, hcnd⟩
          have hsplit : ∀ c ∈ cats, shapeOkCategory c = true ∧ catCountOk c = true := by
            intro c hc
            have hcb := List.all_eq_true.mp hb c hc
            simpa using hcb
          refine ⟨List.all_eq_true.mpr (fun c hc => (hsplit c hc).1), hnd, hcnd, ?_⟩
          intro _
          rw [Bool.and_eq_true]
          exact ⟨hcnt, List.all_eq_true.mpr (fun c hc => (hsplit c hc).2)⟩
        · rintro ⟨hsh, hnd, hcnd, hs⟩
          have hcc := hs (by trivial)
          rw [Bool.and_eq_true] at hcc
          refine ⟨?_, ⟨hnd, by simp⟩, hcnd⟩
          rw [List.all_eq_true]
          intro c hc
          simp only [Bool.and_eq_true, Bool.false_or]
          exact ⟨List.all_eq_true.mp hsh c hc, List.all_eq_true.mp hcc.2 c hc⟩

/-- C7: loading succeeds exactly when the document is well-shaped, all card
ids and all category ids are globally unique, and (in strict mode only) there
are 45 categories of 45 cards each; relaxed mode skips only the cardinality
checks. -/
theorem c7_load_validation_iff (data : RawData) (skip : Bool) (rand : Nat → Nat) :
    (∃ g, loadGameData data skip rand = .ok g) ↔
      (shapeOk data = true ∧ (allCardIds data).Nodup ∧ (catIds data).Nodup ∧
       (skip = false → strictOk data = true)) :=
  load_ok_validation_iff data skip rand

/-- Witness for C7 on concrete datasets: the tiny relaxed dataset loads, and
the same dataset is rejected in strict mode. -/
theorem c7_load_validation_iff_witness :
    (∃ g, loadGameData tinyRawData true (fun _ => 0) = .ok g) ∧
    ¬ (∃ g, loadGameData tinyRawData false (fun _ => 0) = .ok g) :=
  ⟨(c7_load_validation_iff tinyRawData true (fun _ => 0)).mpr
      ⟨by decide, by decide, by decide, fun h => by cases h⟩,
   fun hex =>
     have h := (c7_load_validation_iff tinyRawData false (fun _ => 0)).mp hex
     absurd (h.2.2.2 rfl) (by decide)⟩

theorem gameReducer_cards (s : GameState) (a : GameAction) :
    (gameReducer s a).cards = s.cards := by
  cases a with
  | createPile pid c1 c2 =>
    cases hc1 : s.cards.find? (fun c => c.id == c1) with
    | none => simp [gameReducer, hc1]
    | some card1 =>
      cases hc2 : s.cards.find? (fun c => c.id == c2) with
      | none => simp [gameReducer, hc1, hc2]
      | some card2 =>
        cases hcat : card1.categoryId != card2.categoryId with
        | true => simp [gameReducer, hc1, hc2, hcat]
        | false => simp [gameReducer, hc1, hc2, hcat]
  | addCardToPile cid pid cn =>
    cases hfind : s.piles.find? (fun p => p.id == pid) with
    | none => simp [gameReducer, hfind]
    | some pile => simp [gameReducer, hfind]
  | splitPile pid => rfl
  | incrementMistakes => rfl
  | resetGame => rfl

theorem tryAddCardToPile_cards (s : GameState) (cats : List Category)
    (cid pid : String) : ((tryAddCardToPile s cats cid pid).1).cards = s.cards := by
  cases hc : s.cards.find? (fun c => c.id == cid) with
  | none => simp [tryAddCardToPile, hc]
  | some card =>
    cases hp : s.piles.find? (fun p => p.id == pid) with
    | none => simp [tryAddCardToPile, hc, hp]
    | some pile =>
      cases hcomp : pile.isComplete with
      | true => simp [tryAddCardToPile, hc, hp, hcomp]
      | false =>
        cases hgate : canAddCardToPile card pile s.cards with
        | false => simp [tryAddCardToPile, hc, hp, hcomp, hgate, gameReducer_cards]
        | true => simp [tryAddCardToPile, hc, hp, hcomp, hgate, gameReducer_cards]

theorem tryCreatePile_cards (s : GameState) (pid c1 c2 : String) :
    ((tryCreatePile s pid c1 c2).1).cards = s.cards := by
  cases hc1 : s.cards.find? (fun c => c.id == c1) with
  | none => simp [tryCreatePile, hc1]
  | some card1 =>
    cases hc2 : s.cards.find? (fun c => c.id == c2) with
    | none => simp [tryCreatePile, hc1, hc2]
    | some card2 =>
      cases hcat : card1.categoryId != card2.categoryId with
      | true => simp [tryCreatePile, hc1, hc2, hcat, gameReducer_cards]
      | false => simp [tryCreatePile, hc1, hc2, hcat, gameReducer_cards]

theorem mem_setFirstPile (pid : String) (np : Pile) :
    ∀ (l : List Pile) (x : Pile), x ∈ setFirstPile pid np l → x = np ∨ x ∈ l := by
  intro l
  induction l with
  | nil => intro x hx; simp [setFirstPile] at hx
  | cons hd tl ih =>
    intro x hx
    cases hh : hd.id == pid with
    | true =>
      simp only [setFirstPile, hh, if_true] at hx
      rcases List.mem_cons.mp hx with rfl | hx'
      · exact Or.inl rfl
      · exact Or.inr (List.mem_cons_of_mem hd hx')
    | false =>
      simp only [setFirstPile, hh, Bool.false_eq_true, if_false] at hx
      rcases List.mem_cons.mp hx with rfl | hx'
      · exact Or.inr (List.mem_cons_self _ _)
      · rcases ih x hx' with h | h
        · exact Or.inl h
        · exact Or.inr (List.mem_cons_of_mem hd h)

/-- The card's category id resolves through `getCategoryName` to a non-empty
name. -/
def categoryNameResolves (cats : List Category) (c : Card) : Prop :=
  ∃ n, getCategoryName c.categoryId cats = some n ∧ n ≠ ""

/-- Every card of the dataset resolves to a non-empty category name
(loader-produced data always satisfies this). -/
def DataLinked (cards : List Card) (cats : List Category) : Prop :=
  ∀ c ∈ cards, categoryNameResolves cats c

/-- Well-formedness of one pile under gate-cleared play. -/
def pileShape (pile : Pile) : Prop :=
  (pile.revealedCategoryName ≠ none ↔ pile.isComplete = true) ∧
  (pile.isComplete = true ↔ pile.cardIds.length = 45) ∧
  pile.cardIds.length ≤ 45

/-- All piles of the state are well-formed. -/
def pilesShapeInv (s : GameState) : Prop :=
  ∀ pile ∈ s.piles, pileShape pile

theorem pilesShape_gateStep {cats : List Category} {s s' : GameState}
    (hstep : GateStep cats s s') (hlink : DataLinked s.cards cats)
    (hinv : pilesShapeInv s) : pilesShapeInv s' := by
  cases hstep with
  | tryCreate newPileId card1Id card2Id hfresh =>
    cases hc1 : s.cards.find? (fun c => c.id == card1Id) with
    | none => simpa [tryCreatePile, hc1] using hinv
    | some card1 =>
      cases hc2 : s.cards.find? (fun c => c.id == card2Id) with
      | none => simpa [tryCreatePile, hc1, hc2] using hinv
      | some card2 =>
        cases hcat : card1.categoryId != card2.categoryId with
        | true =>
          intro x hx
          simp only [tryCreatePile, hc1, hc2, hcat, if_true, gameReducer] at hx
          exact hinv x hx
        | false =>
          intro x hx
          simp only [tryCreatePile, hc1, hc2, hcat, Bool.false_eq_true, if_false,
            gameReducer] at hx
          rcases List.mem_append.mp hx with h | h
          · exact hinv x h
          · simp only [List.mem_singleton] at h
            subst h
            exact ⟨by simp, by simp, by norm_num⟩
  | tryAdd cardId pileId =>
    cases hc : s.cards.find? (fun c => c.id == cardId) with
    | none => simpa [tryAddCardToPile, hc] using hinv
    | some card =>
      cases hp : s.piles.find? (fun p => p.id == pileId) with
      | none => simpa [tryAddCardToPile, hc, hp] using hinv
      | some pile =>
        cases hcomp : pile.isComplete with
        | true => simpa [tryAddCardToPile, hc, hp, hcomp] using hinv
        | false =>
          cases hgate : canAddCardToPile card pile s.cards with
          | false =>
            intro x hx
            simp only [tryAddCardToPile, hc, hp, hcomp, hgate, Bool.not_false,
              Bool.false_eq_true, if_false, if_true, gameReducer] at hx
            exact hinv x hx
          | true =>
            intro x hx
            have hpilemem : pile ∈ s.piles := List.mem_of_find?_eq_some hp
            obtain ⟨hrev, hlen45, hle⟩ := hinv pile hpilemem
            simp only [tryAddCardToPile, hc, hp, hcomp, hgate, Bool.not_true,
              Bool.false_eq_true, if_false, gameReducer] at hx
            rcases mem_setFirstPile pileId _ s.piles x hx with rfl | hxs
            · have hnotlen : pile.cardIds.length ≠ 45 := by
                intro hcontra
                have := hlen45.mpr hcontra
                rw [hcomp] at this
                exact absurd this (by simp)
              have hlt : pile.cardIds.length < 45 := lt_of_le_of_ne hle hnotlen
              have hrevnone : pile.revealedCategoryName = none := by
                by_contra hne
                have := hrev.mp hne
                rw [hcomp] at this
                exact absurd this (by simp)
              cases hwc : pile.cardIds.length + 1 == 45 with
              | false =>
                simp only [Bool.false_eq_true, if_false]
                have hUeq : addCardUpdatedPile pile cardId (strFalsyToNone none) =
                    { pile with cardIds := pile.cardIds ++ [cardId] } := by
                  simp [addCardUpdatedPile, isPileComplete, List.length_append, hwc]
                have hne45 : pile.cardIds.length + 1 ≠ 45 := by simpa using hwc
                rw [hUeq]
                refine ⟨?_, ?_, ?_⟩
                · simp [pileShape, hrevnone, hcomp]
                · simp [pileShape, hcomp, List.length_append, hne45]
                · simp only [List.length_append, List.length_singleton]
                  omega
              | true =>
                rw [if_pos rfl]
                have hlen45' : pile.cardIds.length + 1 = 45 := by simpa using hwc
                have hcardmem : card ∈ s.cards := List.mem_of_find?_eq_some hc
                obtain ⟨n, hgn, hnne⟩ := hlink card hcardmem
                rw [hgn]
                have hsf : strFalsyToNone (some n) = some n := by
                  simp [strFalsyToNone, hnne]
                rw [hsf]
                have hUeq : addCardUpdatedPile pile cardId (some n) =
                    { pile with
                      cardIds := pile.cardIds ++ [cardId],
                      isComplete := true,
                      revealedCategoryName := some n } := by
                  simp [addCardUpdatedPile, isPileComplete, List.length_append,
                    hwc, strFalsyToNone, hnne]
                rw [hUeq]
                refine ⟨by simp, ?_, ?_⟩
                · simp [List.length_append, hlen45']
                · simp only [List.length_append, List.length_singleton]
                  omega
            · exact hinv x hxs
  | split pileId =>
    intro x hx
    simp only [gameReducer] at hx
    exact hinv x (List.mem_of_mem_filter hx)
  | incr =>
    intro x hx
    simp only [gameReducer] at hx
    exact hinv x hx
  | reset =>
    intro x hx
    simp only [gameReducer, List.not_mem_nil] at hx

theorem gateStep_cards {cats : List Category} {s s' : GameState}
    (h : GateStep cats s s') : s'.cards = s.cards := by
  cases h with
  | tryCreate pid c1 c2 hfresh => exact tryCreatePile_cards s pid c1 c2
  | tryAdd cid pid => exact tryAddCardToPile_cards s cats cid pid
  | split pid => exact gameReducer_cards s _
  | incr => exact gameReducer_cards s _
  | reset => exact gameReducer_cards s _

theorem pilesShape_gateReachable {cats : List Category} {cards : List Card}
    {s : GameState} (hlink : DataLinked cards cats)
    (hreach : GateReachable cats cards s) : pilesShapeInv s := by
  have h : s.cards = cards ∧ pilesShapeInv s := by
    induction hreach with
    | refl => exact ⟨rfl, by intro x hx; simp [initState] at hx⟩
    | tail hab hstep ih =>
      have hc := gateStep_cards hstep
      refine ⟨hc.trans ih.1, ?_⟩
      refine pilesShape_gateStep hstep ?_ ih.2
      rw [ih.1]
      exact hlink
  exact h.2

theorem load_dataLinked {data : RawData} {skip : Bool} {rand : Nat → Nat}
    {g : GameData} (h : loadGameData data skip rand = .ok g) :
    DataLinked g.cards g.categories := by
  obtain ⟨hcards, hcats⟩ := loadGameData_ok_cards h
  have hshape : shapeOk data = true :=
    ((load_ok_validation_iff data skip rand).mp ⟨g, h⟩).1
  have hnames : ∀ k ∈ g.categories, k.name ≠ "" := by
    intro k hk
    rw [hcats] at hk
    obtain ⟨rc, hrc, hkeq⟩ := List.mem_map.mp hk
    have htruthy : jsTruthyStr rc.name = true := by
      cases hdc : data.categories with
      | none =>
        rw [hdc] at hrc
        simp at hrc
      | some cats0 =>
        simp only [shapeOk, hdc] at hshape
        rw [hdc, Option.getD_some] at hrc
        have hcb := List.all_eq_true.mp hshape rc hrc
        simp only [shapeOkCategory, Bool.and_eq_true] at hcb
        exact hcb.1.2
    rw [← hkeq]
    cases hrn : rc.name with
    | none => rw [hrn] at htruthy; exact absurd htruthy (by simp [jsTruthyStr])
    | some nm =>
      rw [hrn] at htruthy
      simp only [jsTruthyStr, bne_iff_ne] at htruthy
      simpa using htruthy
  intro c hcmem
  rw [hcards] at hcmem
  have hcflat : c ∈ flattenedCards data :=
    ((shuffleArray_perm rand (flattenedCards data)).mem_iff).mp hcmem
  obtain ⟨rc, hrc, hcmap⟩ := List.mem_flatMap.mp hcflat
  obtain ⟨rcard, hrcard, hceq⟩ := List.mem_map.mp hcmap
  have htrans : ({ id := rawCatId rc, name := rc.name.getD "" } : Category)
      ∈ g.categories := by
    rw [hcats]
    exact List.mem_map_of_mem _ hrc
  have hcid : c.categoryId = rawCatId rc := by rw [← hceq]
  have hsome : (g.categories.find? (fun k => k.id == c.categoryId)).isSome := by
    rw [List.find?_isSome]
    exact ⟨_, htrans, by simp [hcid]⟩
  obtain ⟨k, hkfind⟩ := Option.isSome_iff_exists.mp hsome
  refine ⟨k.name, ?_, ?_⟩
  · unfold getCategoryName
    rw [hkfind]
  · exact hnames k (List.mem_of_find?_eq_some hkfind)

/-- C9: in every state reachable from loader-produced initial data by
gate-cleared transitions, a pile's `revealedCategoryName` is non-null iff its
`isComplete` flag is true. -/
theorem c9_revealed_iff_complete (data : RawData) (skip : Bool)
    (rand : Nat → Nat) (g : GameData) (s : GameState)
    (hload : loadGameData data skip rand = .ok g)
    (hreach : GateReachable g.categories g.cards s) :
    ∀ pile ∈ s.piles,
      (pile.revealedCategoryName ≠ none ↔ pile.isComplete = true) :=
  fun pile hp =>
    (pilesShape_gateReachable (load_dataLinked hload) hreach pile hp).1

/-- The pile created by the first gate-cleared move on the tiny dataset. -/
def c9Pile : Pile :=
  { id := "pile-1", cardIds := ["card-1", "card-2"], isComplete := false,
    revealedCategoryName := none }

/-- Witness for C9 one gate-cleared creation step into the tiny dataset. -/
theorem c9_revealed_iff_complete_witness :
    (c9Pile.revealedCategoryName ≠ none ↔ c9Pile.isComplete = true) :=
  c9_revealed_iff_complete tinyRawData true (fun _ => 0) tinyLoaded
    (tryCreatePile (initState tinyLoaded.cards) "pile-1" "card-1" "card-2").1
    (by decide)
    (Relation.ReflTransGen.single
      (GateStep.tryCreate (initState tinyLoaded.cards) "pile-1" "card-1" "card-2"
        (by decide)))
    c9Pile (by decide)

end Twenty25


